import Mathlib

/-!
Verification of the expo permission-aggregation layer.

The definitions embed, in order:
* `SimpleRequester.parseAndroidPermissions` from
  `packages/expo-permissions/android/.../requesters/SimpleRequester.kt`,
  including Kotlin's short-circuiting `all` combined with the throwing
  `Map.getValue` (modelled in the `Option` monad: `none` is an uncaught
  `NoSuchElementException`);
* `EXCameraPermissionRequester` (`+permissions` and
  `requestPermissionsWithResolver:rejecter:`) from
  `packages/expo-permissions/ios/.../Camera/EXCameraPermissionRequester.m`,
  together with a model of the external `AVCaptureDevice` authorization
  primitives it calls;
* the `onObjectDetected` duplicate-event filter of the `BarCodeScanner`
  TypeScript component.
-/

namespace Expo

/-- The `PermissionsStatus` enumeration (`GRANTED`, `DENIED`, `UNDETERMINED`). -/
inductive PermissionsStatus where
  | granted
  | denied
  | undetermined
deriving DecidableEq, Repr

/-- The string attached to each `PermissionsStatus` enum case (its `status`
property in the Kotlin source, matching the `PermissionsStatus` string
constants in the TypeScript source). -/
def PermissionsStatus.str : PermissionsStatus → String
  | .granted => "granted"
  | .denied => "denied"
  | .undetermined => "undetermined"

/-- A constituent `PermissionsResponse` as consumed by
`parseAndroidPermissions`: the Kotlin interface exposes `status` and
`canAskAgain`. -/
structure PermissionsResponse where
  status : PermissionsStatus
  canAskAgain : Bool
deriving DecidableEq, Repr

/-- A value stored in an Android `Bundle`: the source stores strings
(`putString`) and booleans (`putBoolean`). -/
inductive BundleValue where
  | str (s : String)
  | bool (b : Bool)
deriving DecidableEq, Repr

/-- An Android `Bundle`, as the ordered association list of the keys the
source writes into it. -/
def Bundle := List (String × BundleValue)

instance : DecidableEq Bundle :=
  inferInstanceAs (DecidableEq (List (String × BundleValue)))

/-- Kotlin's `List.all { f(it) }` where the body may throw
(`Map.getValue` on a missing key): short-circuits on the first `false`,
propagates the first exception actually evaluated. -/
def allOrThrow (f : String → Option Bool) : List String → Option Bool
  | [] => some true
  | p :: ps =>
    match f p with
    | none => none
    | some false => some false
    | some true => allOrThrow f ps

/-- `SimpleRequester.parseAndroidPermissions`: combines the map of
constituent responses into the result `Bundle` with keys `status`,
`expires` and `canAskAgain`.  The input map is its lookup function
(`Map.getValue` throwing on a missing key is `none`); the permission list
is `getAndroidPermissions()`.  A `none` result is an uncaught exception. -/
def parseAndroidPermissions (perms : List String)
    (m : String → Option PermissionsResponse) : Option Bundle :=
  ((allOrThrow (fun p => (m p).map (fun r => r.status == .granted)) perms).bind
    fun allGranted =>
      if allGranted then some PermissionsStatus.granted.str
      else
        (allOrThrow (fun p => (m p).map (fun r => r.status == .denied)) perms).bind
          fun allDenied =>
            if allDenied then some PermissionsStatus.denied.str
            else some PermissionsStatus.undetermined.str).bind
    fun status =>
      (allOrThrow (fun p => (m p).map (fun r => r.canAskAgain)) perms).bind
        fun canAskAgain =>
          some [("status", BundleValue.str status),
                ("expires", BundleValue.str "never"),
                ("canAskAgain", BundleValue.bool canAskAgain)]

/-! ## iOS camera requester (`EXCameraPermissionRequester.m`) -/

/-- The `AVAuthorizationStatus` enumeration of AVFoundation. -/
inductive AVAuthorizationStatus where
  | notDetermined
  | restricted
  | denied
  | authorized
deriving DecidableEq, Repr

/-- The `EXPermissionStatus` enumeration used by the iOS requesters. -/
inductive EXPermissionStatus where
  | granted
  | denied
  | undetermined
deriving DecidableEq, Repr

/-- Modelled from the spec: `[EXPermissions permissionStringForStatus:]`
(the `EXPermissions` class itself is not in the source tree).  It renders a
status as the uniform status string, the same "granted" / "denied" /
"undetermined" constants fixed by `PermissionsStatus` in the source's
TypeScript module. -/
def permissionStringForStatus : EXPermissionStatus → String
  | .granted => "granted"
  | .denied => "denied"
  | .undetermined => "undetermined"

/-- The `switch (systemStatus)` of `+permissions`: `Authorized ↦ Granted`,
`Denied`/`Restricted ↦ Denied`, `NotDetermined ↦ Undetermined`. -/
def exStatusOfAVStatus : AVAuthorizationStatus → EXPermissionStatus
  | .authorized => .granted
  | .denied => .denied
  | .restricted => .denied
  | .notDetermined => .undetermined

/-- The environment an `EXCameraPermissionRequester` call observes: the two
`Info.plist` usage-description keys, the current AVFoundation authorization
status for video, and what the user would answer if the OS showed the
authorization prompt. -/
structure IOSWorld where
  hasCameraUsageDescription : Bool
  hasMicrophoneUsageDescription : Bool
  avStatus : AVAuthorizationStatus
  userGrants : Bool
deriving DecidableEq, Repr

/-- What a `+permissions` call produces: whether `UMFatal` was reported, and
the returned dictionary (an association list, as the source builds it with
keys `status` and `expires`). -/
structure QueryResult where
  fatalReported : Bool
  dict : List (String × String)
deriving DecidableEq, Repr

/-- `+[EXCameraPermissionRequester permissions]`: if either usage
description is missing, report a fatal diagnostic and force the system
status to `Denied`; otherwise read the current AVFoundation status; then
map through the `switch` and build the dictionary. -/
def cameraPermissions (w : IOSWorld) : QueryResult :=
  let missing := !(w.hasCameraUsageDescription && w.hasMicrophoneUsageDescription)
  let systemStatus := if missing then AVAuthorizationStatus.denied else w.avStatus
  let status := exStatusOfAVStatus systemStatus
  { fatalReported := missing
    dict := [("status", permissionStringForStatus status), ("expires", "never")] }

/-- Model of the external OS primitive
`+[AVCaptureDevice requestAccessForMediaType:completionHandler:]`: when the
status is not yet determined it shows the authorization prompt, records the
user's answer and passes it to the completion handler; in every other case
it invokes the completion handler with the current decision without showing
any prompt.  Returns (prompt shown, world afterwards, `granted` argument of
the completion handler). -/
def requestAccessForMediaType (w : IOSWorld) :
    Bool × IOSWorld × Bool :=
  match w.avStatus with
  | .notDetermined =>
      let newStatus := if w.userGrants then AVAuthorizationStatus.authorized
                       else AVAuthorizationStatus.denied
      (true, { w with avStatus := newStatus }, w.userGrants)
  | s => (false, w, s == .authorized)

/-- An observable event of one `requestPermissionsWithResolver:rejecter:`
call: the resolver being invoked with a result, or
`[delegate permissionRequesterDidFinish:]` being invoked. -/
inductive ReqEvent where
  | resolveCall (q : QueryResult)
  | delegateFinish
deriving DecidableEq, Repr

/-- The trace of one `requestPermissionsWithResolver:rejecter:` call. -/
structure RequestTrace where
  requestAccessCalled : Bool
  promptShown : Bool
  events : List ReqEvent
deriving DecidableEq, Repr

/-- `-[EXCameraPermissionRequester requestPermissionsWithResolver:rejecter:]`:
unconditionally calls `requestAccessForMediaType` for video; its completion
handler resolves with `+permissions` evaluated in the post-request world and
then, if a delegate is set, notifies `permissionRequesterDidFinish:`. -/
def requestPermissionsWithResolver (w : IOSWorld) (hasDelegate : Bool) :
    RequestTrace :=
  let (prompt, w2, _granted) := requestAccessForMediaType w
  let q := cameraPermissions w2
  { requestAccessCalled := true
    promptShown := prompt
    events := ReqEvent.resolveCall q ::
      (if hasDelegate then [ReqEvent.delegateFinish] else []) }

/-! ## BarCodeScanner duplicate-event filter (`onObjectDetected`) -/

/-- The per-instance duplicate-detection state of `BarCodeScanner`:
`lastEvents` maps an event type to the JSON serialization of the last
delivered event of that type, `lastEventsTimes` to its delivery time (in
milliseconds). -/
structure BCState where
  lastEvents : String → Option String
  lastEventsTimes : String → Option Nat

/-- An incoming native barcode event: its `type` and its JSON
serialization (`JSON.stringify(nativeEvent)`). -/
structure BCEvent where
  type : String
  serialized : String
deriving DecidableEq, Repr

/-- `EVENT_THROTTLE_MS` from the TypeScript source. -/
def EVENT_THROTTLE_MS : Nat := 500

/-- `onObjectDetected` of `BarCodeScanner`: suppress the event when a last
event of its type exists, serializes identically, and was delivered less
than `EVENT_THROTTLE_MS` ago; otherwise, when a callback is provided,
invoke it and record the event and the current time under its type.
Returns (callback invoked, state afterwards). -/
def onObjectDetected (hasCallback : Bool) (st : BCState) (e : BCEvent)
    (now : Nat) : Bool × BCState :=
  if (st.lastEvents e.type).isSome && (st.lastEventsTimes e.type).isSome &&
      (st.lastEvents e.type == some e.serialized) &&
      decide (now - (st.lastEventsTimes e.type).getD 0 < EVENT_THROTTLE_MS) then
    (false, st)
  else if hasCallback then
    (true,
     { lastEvents := fun t => if t = e.type then some e.serialized
                              else st.lastEvents t
       lastEventsTimes := fun t => if t = e.type then some now
                                   else st.lastEventsTimes t })
  else
    (false, st)

/-! ## Helper lemmas -/

/-- When every lookup the loop can make succeeds, the short-circuiting
`all` agrees with the pure `List.all`. -/
theorem allOrThrow_eq_all (f : String → Option Bool) (ps : List String)
    (h : ∀ p ∈ ps, (f p).isSome) :
    allOrThrow f ps = some (ps.all (fun p => (f p).getD false)) := by
  induction ps with
  | nil => rfl
  | cons p ps ih =>
    obtain ⟨b, hb⟩ := Option.isSome_iff_exists.mp (h p (List.mem_cons_self p ps))
    cases b with
    | false => simp [allOrThrow, hb]
    | true =>
      have := ih (fun q hq => h q (List.mem_cons_of_mem _ hq))
      simp [allOrThrow, hb, this]

/-- Under full coverage of the permission list, `parseAndroidPermissions`
succeeds and its result is given explicitly by the three `List.all`
aggregates of the source. -/
theorem parse_eq_of_coverage (perms : List String)
    (m : String → Option PermissionsResponse)
    (h : ∀ p ∈ perms, (m p).isSome) :
    parseAndroidPermissions perms m = some
      [("status", BundleValue.str
          (if perms.all (fun p => ((m p).map (fun r => r.status == .granted)).getD false)
           then "granted"
           else if perms.all (fun p => ((m p).map (fun r => r.status == .denied)).getD false)
           then "denied"
           else "undetermined")),
       ("expires", BundleValue.str "never"),
       ("canAskAgain", BundleValue.bool
          (perms.all (fun p => ((m p).map (fun r => r.canAskAgain)).getD false)))] := by
  have hg := allOrThrow_eq_all (fun p => (m p).map (fun r => r.status == .granted)) perms
    (by intro p hp; simpa using h p hp)
  have hd := allOrThrow_eq_all (fun p => (m p).map (fun r => r.status == .denied)) perms
    (by intro p hp; simpa using h p hp)
  have hc := allOrThrow_eq_all (fun p => (m p).map (fun r => r.canAskAgain)) perms
    (by intro p hp; simpa using h p hp)
  cases hbg : perms.all (fun p => ((m p).map (fun r => r.status == .granted)).getD false) with
  | true =>
    rw [hbg] at hg
    simp [parseAndroidPermissions, hg, hc, PermissionsStatus.str]
  | false =>
    rw [hbg] at hg
    cases hbd : perms.all (fun p => ((m p).map (fun r => r.status == .denied)).getD false) with
    | true =>
      rw [hbd] at hd
      simp [parseAndroidPermissions, hg, hd, hc, PermissionsStatus.str]
    | false =>
      rw [hbd] at hd
      simp [parseAndroidPermissions, hg, hd, hc, PermissionsStatus.str]

/-- Bridge between the boolean aggregate over a covered map and its
propositional reading. -/
theorem all_getD_iff (perms : List String)
    (m : String → Option PermissionsResponse)
    (h : ∀ p ∈ perms, (m p).isSome) (g : PermissionsResponse → Bool) :
    (perms.all (fun p => ((m p).map g).getD false) = true) ↔
      ∀ p ∈ perms, ∀ r, m p = some r → g r = true := by
  simp only [List.all_eq_true]
  constructor
  · intro ha p hp r hr
    have hb := ha p hp
    rw [hr] at hb
    simpa using hb
  · intro ha p hp
    obtain ⟨r, hr⟩ := Option.isSome_iff_exists.mp (h p hp)
    rw [hr]
    simpa using ha p hp r hr

/-- Association-list lookup is invariant under permutation when the keys
are distinct. -/
theorem lookup_eq_of_perm (l1 l2 : List (String × PermissionsResponse))
    (hp : l1.Perm l2) :
    (l1.map Prod.fst).Nodup → ∀ k, l1.lookup k = l2.lookup k := by
  induction hp with
  | nil => intro _ _; rfl
  | cons x p ih =>
    intro hnd k
    obtain ⟨kx, vx⟩ := x
    simp only [List.map_cons] at hnd
    cases hkx : k == kx with
    | true => simp [List.lookup, hkx]
    | false => simpa [List.lookup, hkx] using ih hnd.of_cons k
  | swap x y l =>
    intro hnd k
    obtain ⟨kx, vx⟩ := x
    obtain ⟨ky, vy⟩ := y
    simp only [List.map_cons] at hnd
    have hxy : ky ≠ kx := by
      intro hh
      exact (List.nodup_cons.mp hnd).1 (hh ▸ List.mem_cons_self _ _)
    cases hky : k == ky with
    | true =>
      have hk : k = ky := by simpa using hky
      subst hk
      have hkx : (k == kx) = false := beq_eq_false_iff_ne.mpr hxy
      simp [List.lookup, hkx]
    | false => cases hkx : k == kx with
      | true => simp [List.lookup, hky, hkx]
      | false => simp [List.lookup, hky, hkx]
  | trans p1 p2 ih1 ih2 =>
    intro hnd k
    have hnd2 : _ := (p1.map Prod.fst).nodup_iff.mp hnd
    rw [ih1 hnd k, ih2 hnd2 k]

/-- `requestAccessForMediaType` never changes the bundle's metadata
declarations; it can only change the authorization status. -/
theorem requestAccess_preserves_meta (w : IOSWorld) :
    (requestAccessForMediaType w).2.1.hasCameraUsageDescription
        = w.hasCameraUsageDescription ∧
    (requestAccessForMediaType w).2.1.hasMicrophoneUsageDescription
        = w.hasMicrophoneUsageDescription := by
  cases w with
  | mk c mic av ug => cases av <;> exact ⟨rfl, rfl⟩

/-- A concrete duplicate-detection state for evaluating the throttle. -/
def sampleBCState : BCState where
  lastEvents := fun t => if t = "qr" then some "qr-payload" else none
  lastEventsTimes := fun t => if t = "qr" then some 100 else none

/-- A concrete barcode event duplicating the one recorded in
`sampleBCState`. -/
def sampleBCEvent : BCEvent := ⟨"qr", "qr-payload"⟩

/-- Looking up `canAskAgain` in a bundle of the produced shape. -/
theorem lookup_canAskAgain (s : String) (c : Bool) :
    List.lookup "canAskAgain"
      [("status", BundleValue.str s), ("expires", BundleValue.str "never"),
       ("canAskAgain", BundleValue.bool c)] = some (BundleValue.bool c) := rfl

/-! ## Claim theorems -/

/-- Claim C1: for every multi-permission requester (nonempty permission
list) and every input map covering its required permissions,
`parseAndroidPermissions` succeeds and the combined `status` is
`granted` when every constituent status is `GRANTED`, `denied` when every
constituent status is `DENIED`, and `undetermined` in every other (mixed)
case. -/
theorem combined_status_truth_table (perms : List String)
    (m : String → Option PermissionsResponse)
    (hne : perms ≠ []) (h : ∀ p ∈ perms, (m p).isSome) :
    ∃ b, parseAndroidPermissions perms m = some b ∧
      ((∀ p ∈ perms, ∀ r, m p = some r → r.status = .granted) →
        List.lookup "status" b = some (BundleValue.str "granted")) ∧
      ((∀ p ∈ perms, ∀ r, m p = some r → r.status = .denied) →
        List.lookup "status" b = some (BundleValue.str "denied")) ∧
      (¬ (∀ p ∈ perms, ∀ r, m p = some r → r.status = .granted) →
       ¬ (∀ p ∈ perms, ∀ r, m p = some r → r.status = .denied) →
        List.lookup "status" b = some (BundleValue.str "undetermined")) := by
  refine ⟨_, parse_eq_of_coverage perms m h, ?_, ?_, ?_⟩
  · intro hall
    have hbg : perms.all
        (fun p => ((m p).map (fun r => r.status == .granted)).getD false) = true :=
      (all_getD_iff perms m h _).mpr (fun p hp r hr => by simp [hall p hp r hr])
    simp [hbg]
  · intro hall
    have hbd : perms.all
        (fun p => ((m p).map (fun r => r.status == .denied)).getD false) = true :=
      (all_getD_iff perms m h _).mpr (fun p hp r hr => by simp [hall p hp r hr])
    have hbg : perms.all
        (fun p => ((m p).map (fun r => r.status == .granted)).getD false) = false := by
      cases hx : perms.all
          (fun p => ((m p).map (fun r => r.status == .granted)).getD false) with
      | false => rfl
      | true =>
        obtain ⟨p, hp⟩ := List.exists_mem_of_ne_nil perms hne
        obtain ⟨r, hr⟩ := Option.isSome_iff_exists.mp (h p hp)
        have h1 : r.status = .granted := by
          have hb := (all_getD_iff perms m h _).mp hx p hp r hr
          simpa using hb
        have h2 : r.status = .denied := hall p hp r hr
        rw [h1] at h2
        exact absurd h2 (by decide)
    simp [hbg, hbd]
  · intro hg hd
    have hbg : perms.all
        (fun p => ((m p).map (fun r => r.status == .granted)).getD false) = false := by
      cases hx : perms.all
          (fun p => ((m p).map (fun r => r.status == .granted)).getD false) with
      | false => rfl
      | true =>
        exact absurd (fun p hp r hr => by
          have hb := (all_getD_iff perms m h _).mp hx p hp r hr
          simpa using hb) hg
    have hbd : perms.all
        (fun p => ((m p).map (fun r => r.status == .denied)).getD false) = false := by
      cases hx : perms.all
          (fun p => ((m p).map (fun r => r.status == .denied)).getD false) with
      | false => rfl
      | true =>
        exact absurd (fun p hp r hr => by
          have hb := (all_getD_iff perms m h _).mp hx p hp r hr
          simpa using hb) hd
    simp [hbg, hbd]

/-- Witness for claim C1: with camera granted and microphone denied the
combined status is `undetermined`, the mixed row of the truth table. -/
theorem combined_status_truth_table_witness :
    ∃ b, parseAndroidPermissions ["cam", "mic"]
        (fun p => if p = "cam" then some ⟨.granted, true⟩ else some ⟨.denied, false⟩)
      = some b ∧ List.lookup "status" b = some (BundleValue.str "undetermined") := by
  obtain ⟨b, hb, _, _, hu⟩ :=
    combined_status_truth_table ["cam", "mic"]
      (fun p => if p = "cam" then some ⟨.granted, true⟩ else some ⟨.denied, false⟩)
      (by decide) (by intro p hp; by_cases hc : p = "cam" <;> simp [hc])
  refine ⟨b, hb, hu ?_ ?_⟩
  · intro hall
    have h1 := hall "mic" (by decide) ⟨.denied, false⟩ (by decide)
    exact absurd h1 (by decide)
  · intro hall
    have h1 := hall "cam" (by decide) ⟨.granted, true⟩ (by decide)
    exact absurd h1 (by decide)

/-- Claim C6: in every combined response produced under full coverage, the
`canAskAgain` entry is the conjunction (`List.all`) of the constituent
`canAskAgain` flags. -/
theorem combined_canAskAgain_is_and (perms : List String)
    (m : String → Option PermissionsResponse)
    (h : ∀ p ∈ perms, (m p).isSome) :
    ∃ b, parseAndroidPermissions perms m = some b ∧
      List.lookup "canAskAgain" b =
        some (BundleValue.bool
          (perms.all (fun p => ((m p).map (fun r => r.canAskAgain)).getD false))) ∧
      (List.lookup "canAskAgain" b = some (BundleValue.bool true) ↔
        ∀ p ∈ perms, ∀ r, m p = some r → r.canAskAgain = true) := by
  refine ⟨_, parse_eq_of_coverage perms m h, lookup_canAskAgain _ _, ?_⟩
  rw [lookup_canAskAgain]
  constructor
  · intro hl
    have hall : perms.all
        (fun p => ((m p).map (fun r => r.canAskAgain)).getD false) = true := by
      simpa using hl
    exact fun p hp r hr => (all_getD_iff perms m h _).mp hall p hp r hr
  · intro ha
    have hall := (all_getD_iff perms m h _).mpr ha
    simp [hall]

/-- Witness for claim C6: one constituent with `canAskAgain = false` makes
the combined `canAskAgain` false. -/
theorem combined_canAskAgain_is_and_witness :
    ∃ b, parseAndroidPermissions ["cam2", "mic2"]
        (fun p => if p = "cam2" then some ⟨.granted, true⟩ else some ⟨.denied, false⟩)
      = some b ∧ List.lookup "canAskAgain" b = some (BundleValue.bool false) := by
  obtain ⟨b, hb, he, _⟩ :=
    combined_canAskAgain_is_and ["cam2", "mic2"]
      (fun p => if p = "cam2" then some ⟨.granted, true⟩ else some ⟨.denied, false⟩)
      (by intro p hp; by_cases hc : p = "cam2" <;> simp [hc])
  refine ⟨b, hb, ?_⟩
  rw [he]
  rfl

/-- Claim C7: `parseAndroidPermissions` is order-independent in its input
map: two association lists that are permutations of one another (with
distinct keys) produce identical output. -/
theorem parse_perm_invariant (perms : List String)
    (l1 l2 : List (String × PermissionsResponse))
    (hp : l1.Perm l2) (hnd : (l1.map Prod.fst).Nodup) :
    parseAndroidPermissions perms (fun k => l1.lookup k)
      = parseAndroidPermissions perms (fun k => l2.lookup k) := by
  have hf : (fun k => l1.lookup k) = (fun k => l2.lookup k) :=
    funext (fun k => lookup_eq_of_perm l1 l2 hp hnd k)
  rw [hf]

/-- Witness for claim C7 on a two-entry map and its transposition. -/
theorem parse_perm_invariant_witness :
    parseAndroidPermissions ["pa", "pb"]
        (fun k => List.lookup k [("pa", ⟨.granted, true⟩), ("pb", ⟨.denied, false⟩)])
      = parseAndroidPermissions ["pa", "pb"]
        (fun k => List.lookup k [("pb", ⟨.denied, false⟩), ("pa", ⟨.granted, true⟩)]) :=
  parse_perm_invariant ["pa", "pb"]
    [("pa", ⟨.granted, true⟩), ("pb", ⟨.denied, false⟩)]
    [("pb", ⟨.denied, false⟩), ("pa", ⟨.granted, true⟩)]
    (by decide) (by decide)

/-- Counterexample to claim C8 as stated: this map omits required
permission `cb`, yet `parseAndroidPermissions` does not throw — the single
present response is `UNDETERMINED` with `canAskAgain = false`, so every
short-circuiting `all` stops before ever looking up `cb`. -/
theorem parse_partiality_counterexample :
    (fun p => if p = "ca"
      then some (⟨.undetermined, false⟩ : PermissionsResponse) else none) "cb" = none ∧
    parseAndroidPermissions ["ca", "cb"]
      (fun p => if p = "ca" then some ⟨.undetermined, false⟩ else none) ≠ none := by
  decide

/-- Claim C8 as amended: `parseAndroidPermissions` is total (never throws)
whenever the map covers every required permission, and it is genuinely
partial — a map omitting a required permission can make it throw (here the
very first lookup fails) — but an omission is only observed when the
short-circuiting evaluation actually reaches the missing key. -/
theorem parse_total_under_coverage :
    (∀ perms m, (∀ p ∈ perms, (m p).isSome) →
      (parseAndroidPermissions perms m).isSome) ∧
    parseAndroidPermissions ["ca"]
      (fun _ => (none : Option PermissionsResponse)) = none := by
  constructor
  · intro perms m h
    rw [parse_eq_of_coverage perms m h]
    rfl
  · rfl

/-- Witness for claim C8 (amended): a covering map evaluates to a present
result. -/
theorem parse_total_under_coverage_witness :
    (parseAndroidPermissions ["cw"]
      (fun _ => some (⟨.granted, true⟩ : PermissionsResponse))).isSome :=
  parse_total_under_coverage.1 ["cw"] _ (fun _ _ => rfl)

/-- The normal form of one request trace: the native primitive is always
called, the prompt is shown exactly when the status was still
undetermined, and the resolver receives `+permissions` evaluated in the
post-request world, followed by the delegate notification when a delegate
is set. -/
theorem requestTrace_shape (w : IOSWorld) (d : Bool) :
    requestPermissionsWithResolver w d =
      { requestAccessCalled := true
        promptShown := (w.avStatus == AVAuthorizationStatus.notDetermined)
        events := ReqEvent.resolveCall
            (cameraPermissions ((requestAccessForMediaType w).2.1)) ::
          (if d then [ReqEvent.delegateFinish] else []) } := by
  cases w with
  | mk c mic av ug => cases av <;> rfl

/-- Counterexample to claim C2 as stated: with the camera usage
description missing (a fatal configuration), the request path still
invokes the native prompt primitive — `requestAccessForMediaType` is
called unconditionally, and with the status still undetermined the OS
prompt is even shown. -/
theorem request_path_calls_prompt_counterexample :
    (cameraPermissions
        ⟨false, true, AVAuthorizationStatus.notDetermined, true⟩).fatalReported = true ∧
    (requestPermissionsWithResolver
        ⟨false, true, AVAuthorizationStatus.notDetermined, true⟩ true).requestAccessCalled
      = true ∧
    (requestPermissionsWithResolver
        ⟨false, true, AVAuthorizationStatus.notDetermined, true⟩ true).promptShown
      = true := by
  decide

/-- Claim C2 as amended: with a required usage description missing, the
query path reports a fatal diagnostic and yields `denied` without any
prompt, and the request path still resolves with the fatal diagnostic and
a `denied` status — but only after invoking the native prompt primitive
unconditionally (the metadata check runs inside the completion handler,
not before the request). -/
theorem missing_usage_description_behavior (w : IOSWorld)
    (hmiss : (w.hasCameraUsageDescription && w.hasMicrophoneUsageDescription) = false) :
    ((cameraPermissions w).fatalReported = true ∧
      List.lookup "status" (cameraPermissions w).dict = some "denied") ∧
    (∀ d : Bool,
      (requestPermissionsWithResolver w d).requestAccessCalled = true ∧
      ∃ q, ReqEvent.resolveCall q ∈ (requestPermissionsWithResolver w d).events ∧
        q.fatalReported = true ∧ List.lookup "status" q.dict = some "denied") := by
  have hq : ∀ v : IOSWorld,
      (v.hasCameraUsageDescription && v.hasMicrophoneUsageDescription) = false →
      (cameraPermissions v).fatalReported = true ∧
        List.lookup "status" (cameraPermissions v).dict = some "denied" := by
    intro v hv
    constructor
    · simp [cameraPermissions, hv]
    · simp [cameraPermissions, hv, exStatusOfAVStatus, permissionStringForStatus,
        List.lookup]
  refine ⟨hq w hmiss, ?_⟩
  intro d
  rw [requestTrace_shape w d]
  have hw2 : ((requestAccessForMediaType w).2.1.hasCameraUsageDescription &&
      (requestAccessForMediaType w).2.1.hasMicrophoneUsageDescription) = false := by
    rw [(requestAccess_preserves_meta w).1, (requestAccess_preserves_meta w).2]
    exact hmiss
  exact ⟨rfl, cameraPermissions _, List.mem_cons_self _ _, (hq _ hw2).1, (hq _ hw2).2⟩

/-- Witness for claim C2 (amended) in a world missing the microphone
usage description. -/
theorem missing_usage_description_behavior_witness :
    (cameraPermissions ⟨true, false, AVAuthorizationStatus.authorized, true⟩).fatalReported
      = true ∧
    (requestPermissionsWithResolver
        ⟨true, false, AVAuthorizationStatus.authorized, true⟩ true).requestAccessCalled
      = true := by
  have h := missing_usage_description_behavior
    ⟨true, false, AVAuthorizationStatus.authorized, true⟩ (by decide)
  exact ⟨h.1.1, (h.2 true).1⟩

/-- Counterexample to claim C3 as stated: a response produced by the
Android requester has exactly the keys `status`, `expires` and
`canAskAgain`, and the iOS dictionary has `status` and `expires` — no
produced response contains a `granted` field at all. -/
theorem granted_field_counterexample :
    parseAndroidPermissions ["g1"]
        (fun _ => some (⟨.granted, true⟩ : PermissionsResponse))
      = some [("status", BundleValue.str "granted"), ("expires", BundleValue.str "never"),
              ("canAskAgain", BundleValue.bool true)] ∧
    List.lookup "granted"
        [("status", BundleValue.str "granted"), ("expires", BundleValue.str "never"),
         ("canAskAgain", BundleValue.bool true)] = (none : Option BundleValue) ∧
    List.lookup "granted"
        (cameraPermissions ⟨true, true, AVAuthorizationStatus.authorized, true⟩).dict
      = (none : Option String) := by
  decide

/-- Claim C3 as amended: no response produced by these requesters carries a
`granted` field — the Android bundle always has exactly the keys `status`,
`expires`, `canAskAgain`, and the iOS dictionary exactly `status`,
`expires`; the `granted` flag of the public response shape is not set by
the requesters themselves. -/
theorem responses_have_no_granted_field :
    (∀ perms m b, parseAndroidPermissions perms m = some b →
       b.map Prod.fst = ["status", "expires", "canAskAgain"] ∧
       List.lookup "granted" b = none) ∧
    (∀ w : IOSWorld,
       (cameraPermissions w).dict.map Prod.fst = ["status", "expires"] ∧
       List.lookup "granted" (cameraPermissions w).dict = none) := by
  constructor
  · intro perms m b hb
    simp only [parseAndroidPermissions, Option.bind_eq_some] at hb
    obtain ⟨status, -, c, -, hb⟩ := hb
    cases hb
    exact ⟨rfl, rfl⟩
  · intro w
    exact ⟨rfl, rfl⟩

/-- Witness for claim C3 (amended) on a concrete produced bundle. -/
theorem responses_have_no_granted_field_witness :
    List.lookup "granted"
        [("status", BundleValue.str "denied"), ("expires", BundleValue.str "never"),
         ("canAskAgain", BundleValue.bool true)] = (none : Option BundleValue) :=
  (responses_have_no_granted_field.1 ["g2"]
    (fun _ => some ⟨.denied, true⟩) _ rfl).2

/-- Claim C4: the OS authorization prompt is shown on a request call
exactly when the current authorization status is still not determined;
already granted or denied (or restricted) permissions are not
re-prompted. -/
theorem prompt_only_when_undetermined (w : IOSWorld) (d : Bool) :
    (requestPermissionsWithResolver w d).promptShown
      = (w.avStatus == AVAuthorizationStatus.notDetermined) := by
  rw [requestTrace_shape w d]

/-- Claim C5: when a delegate is set, every request call that reaches its
terminal state notifies `permissionRequesterDidFinish:` exactly once, and
only after the resolver was invoked with the combined response. -/
theorem delegate_notified_exactly_once (w : IOSWorld) (d : Bool) (hd : d = true) :
    ((requestPermissionsWithResolver w d).events.count ReqEvent.delegateFinish = 1) ∧
    ∃ q, (requestPermissionsWithResolver w d).events
        = [ReqEvent.resolveCall q, ReqEvent.delegateFinish] := by
  subst hd
  rw [requestTrace_shape w true]
  refine ⟨?_, cameraPermissions _, rfl⟩
  simp [List.count_cons]

/-- Witness for claim C5 on a concrete world. -/
theorem delegate_notified_exactly_once_witness :
    ((requestPermissionsWithResolver
        ⟨true, true, AVAuthorizationStatus.denied, false⟩ true).events.count
      ReqEvent.delegateFinish) = 1 :=
  (delegate_notified_exactly_once
    ⟨true, true, AVAuthorizationStatus.denied, false⟩ true rfl).1

/-- Claim C9: the `switch` of `+permissions` maps `Authorized` to
`Granted`, both `Denied` and `Restricted` to `Denied` (so a restricted
device is indistinguishable from an explicit user denial), and
`NotDetermined` to `Undetermined`; with both usage descriptions present
the produced dictionary is exactly this mapping rendered as strings. -/
theorem av_status_mapping :
    exStatusOfAVStatus AVAuthorizationStatus.authorized = EXPermissionStatus.granted ∧
    exStatusOfAVStatus AVAuthorizationStatus.denied = EXPermissionStatus.denied ∧
    exStatusOfAVStatus AVAuthorizationStatus.restricted = EXPermissionStatus.denied ∧
    exStatusOfAVStatus AVAuthorizationStatus.restricted
      = exStatusOfAVStatus AVAuthorizationStatus.denied ∧
    exStatusOfAVStatus AVAuthorizationStatus.notDetermined
      = EXPermissionStatus.undetermined ∧
    ∀ av : AVAuthorizationStatus,
      (cameraPermissions ⟨true, true, av, true⟩).dict
        = [("status", permissionStringForStatus (exStatusOfAVStatus av)),
           ("expires", "never")] := by
  refine ⟨rfl, rfl, rfl, rfl, rfl, ?_⟩
  intro av
  cases av <;> rfl

/-- Claim C10: with a callback provided, `onObjectDetected` suppresses an
event exactly when the last delivered event of its type has the same JSON
serialization and happened less than `EVENT_THROTTLE_MS` ago; every other
event invokes the callback and updates the record and timestamp for its
type, leaving other types untouched. -/
theorem barcode_event_throttle (st : BCState) (e : BCEvent) (now : Nat) :
    ((st.lastEvents e.type = some e.serialized ∧
        ∃ t, st.lastEventsTimes e.type = some t ∧ now - t < EVENT_THROTTLE_MS) →
      onObjectDetected true st e now = (false, st)) ∧
    (¬ (st.lastEvents e.type = some e.serialized ∧
        ∃ t, st.lastEventsTimes e.type = some t ∧ now - t < EVENT_THROTTLE_MS) →
      (onObjectDetected true st e now).1 = true ∧
      (onObjectDetected true st e now).2.lastEvents e.type = some e.serialized ∧
      (onObjectDetected true st e now).2.lastEventsTimes e.type = some now ∧
      (∀ t, t ≠ e.type →
        (onObjectDetected true st e now).2.lastEvents t = st.lastEvents t ∧
        (onObjectDetected true st e now).2.lastEventsTimes t = st.lastEventsTimes t)) := by
  have hg : ((st.lastEvents e.type).isSome && (st.lastEventsTimes e.type).isSome &&
      (st.lastEvents e.type == some e.serialized) &&
      decide (now - (st.lastEventsTimes e.type).getD 0 < EVENT_THROTTLE_MS)) = true ↔
      (st.lastEvents e.type = some e.serialized ∧
        ∃ t, st.lastEventsTimes e.type = some t ∧ now - t < EVENT_THROTTLE_MS) := by
    cases hle : st.lastEvents e.type with
    | none => simp [hle]
    | some s =>
      cases hlt : st.lastEventsTimes e.type with
      | none => simp [hlt]
      | some t => simp [hle, hlt]
  constructor
  · intro hc
    have hgt := hg.mpr hc
    simp [onObjectDetected, hgt]
  · intro hc
    have hgf : ((st.lastEvents e.type).isSome && (st.lastEventsTimes e.type).isSome &&
        (st.lastEvents e.type == some e.serialized) &&
        decide (now - (st.lastEventsTimes e.type).getD 0 < EVENT_THROTTLE_MS)) = false :=
      Bool.eq_false_iff.mpr (fun hx => hc (hg.mp hx))
    refine ⟨by simp [onObjectDetected, hgf], by simp [onObjectDetected, hgf],
      by simp [onObjectDetected, hgf], ?_⟩
    intro t ht
    constructor <;> simp [onObjectDetected, hgf, ht]

/-- Witness for claim C10: a duplicate `qr` event 300 ms after the
recorded one is suppressed. -/
theorem barcode_event_throttle_witness :
    onObjectDetected true sampleBCState sampleBCEvent 400 = (false, sampleBCState) :=
  (barcode_event_throttle sampleBCState sampleBCEvent 400).1
    ⟨by simp [sampleBCState, sampleBCEvent], 100,
      by simp [sampleBCState, sampleBCEvent], by decide⟩

end Expo
